import Mathlib

/-!
# Verification of the F5 Security UI message-processing pipeline

A shallow embedding, in Lean 4, of the core message-processing code of the
`f5_security_ui` frontend (files `modules/api.py`, `modules/utils.py`,
`chat.py`), together with proofs and refutations of the behavioural claims
made about it.

Python is dynamically typed, so the embedding works over a small universe
`PyVal` of Python values (`None`, `bool`, `int`, `str`, `list`, `dict` with
string keys), with the Python operations the code uses (`len`, indexing,
`in`, `dict.get`, truthiness, f-string conversion) modelled explicitly.
Operations that can raise a Python exception on a dynamically ill-typed
operand return `Option`, with `Option.none` standing for "an exception was
raised"; code wrapped in `try/except` collapses that `Option.none` to the
value returned by its `except` branch.
-/

/-- A Python value, as used by the code under verification: `None`, booleans,
integers, strings, lists, and dicts with string keys (every dict the code
builds or probes is keyed by strings). -/
inductive PyVal where
  | none : PyVal
  | bool : Bool → PyVal
  | int : Int → PyVal
  | str : String → PyVal
  | list : List PyVal → PyVal
  | dict : List (String × PyVal) → PyVal
deriving Repr, BEq

/-- Python truthiness (`bool(v)`): `None` and `False` are falsy; numbers are
truthy unless zero; strings, lists and dicts are truthy unless empty. -/
def PyVal.truthy : PyVal → Bool
  | .none => false
  | .bool b => b
  | .int n => n != 0
  | .str s => !s.isEmpty
  | .list l => !l.isEmpty
  | .dict d => !d.isEmpty

mutual

/-- Python `repr(v)` (approximated for strings: quotes are added but inner
escaping is not modelled — no claim exercises a string needing escapes). -/
def PyVal.reprPy : PyVal → String
  | .none => "None"
  | .bool b => if b then "True" else "False"
  | .int n => toString n
  | .str s => "\x27" ++ s ++ "\x27"
  | .list l => "[" ++ PyVal.reprPyList l ++ "]"
  | .dict d => "\x7b" ++ PyVal.reprPyDict d ++ "\x7d"

/-- `repr` of list elements, comma-separated. -/
def PyVal.reprPyList : List PyVal → String
  | [] => ""
  | [v] => v.reprPy
  | v :: rest => v.reprPy ++ ", " ++ PyVal.reprPyList rest

/-- `repr` of dict entries, comma-separated. -/
def PyVal.reprPyDict : List (String × PyVal) → String
  | [] => ""
  | [(k, v)] => "\x27" ++ k ++ "\x27: " ++ v.reprPy
  | (k, v) :: rest => "\x27" ++ k ++ "\x27: " ++ v.reprPy ++ ", " ++ PyVal.reprPyDict rest

end

/-- Python `str(v)`, as used by f-string interpolation: identity on strings,
`repr` otherwise. -/
def PyVal.strPy : PyVal → String
  | .str s => s
  | v => v.reprPy

/-- First value bound to `key` in a dict's entry list (Python dicts have
unique keys, so this is the dict lookup). -/
def lookupKey : List (String × PyVal) → String → Option PyVal
  | [], _ => Option.none
  | (k, v) :: rest, key => if k == key then some v else lookupKey rest key

/-- Python `len(v)`: defined on strings, lists and dicts; `TypeError`
(`Option.none`) otherwise. -/
def pyLen : PyVal → Option Nat
  | .str s => some s.length
  | .list l => some l.length
  | .dict d => some d.length
  | _ => Option.none

/-- Python `v[0]`: head of a list (`IndexError` when empty), first character
of a string, `KeyError` on a string-keyed dict, `TypeError` otherwise. -/
def pyIndexFirst : PyVal → Option PyVal
  | .list (h :: _) => some h
  | .list [] => Option.none
  | .str s =>
    match s.data with
    | c :: _ => some (.str (String.mk [c]))
    | [] => Option.none
  | _ => Option.none

/-- Python `v[key]` for a string `key`: dict lookup (`KeyError` when the key
is absent); `TypeError` on every other value. -/
def pyGetItem : PyVal → String → Option PyVal
  | .dict d, key => lookupKey d key
  | _, _ => Option.none

/-- Does `pat` occur as a contiguous substring of `s` (character lists)? -/
def charsContains (pat : List Char) : List Char → Bool
  | [] => pat.isEmpty
  | c :: rest => pat.isPrefixOf (c :: rest) || charsContains pat rest

/-- Python `key in v` for a string `key`: key test on dicts, element test on
lists, substring test on strings; `TypeError` (`Option.none`) otherwise. -/
def pyContains : PyVal → String → Option Bool
  | .dict d, key => some (d.any (fun p => p.1 == key))
  | .list l, key => some (l.any (fun x => x == PyVal.str key))
  | .str s, key => some (charsContains key.data s.data)
  | _, _ => Option.none

/-- Python `v.get(key, default)`: only dicts have `.get`; any other value
raises `AttributeError` (`Option.none`). -/
def pyGet (v : PyVal) (key : String) (default : PyVal) : Option PyVal :=
  match v with
  | .dict d =>
    match lookupKey d key with
    | some x => some x
    | Option.none => some default
  | _ => Option.none

/-! ## Sanitizer — `APIClient._sanitize_input` (modules/api.py, lines 268–293)

```python
if not isinstance(text, str):
    return ""
sanitized = text.replace('\x00', '')
max_length = 10000
if len(sanitized) > max_length:
    sanitized = sanitized[:max_length]
return sanitized
```
-/

/-- The NUL character stripped by the sanitizer. -/
def nulChar : Char := '\x00'

/-- The sanitizer's character-level core: strip NUL bytes, then truncate to a
10000-character prefix when longer. -/
def sanitize_chars (cs : List Char) : List Char :=
  let sanitized := cs.filter (fun c => c != nulChar)
  if sanitized.length > 10000 then sanitized.take 10000 else sanitized

namespace APIClient

/-- `APIClient._sanitize_input` on a value already known to be a string. -/
def sanitize_input_str (text : String) : String :=
  String.mk (sanitize_chars text.data)

/-- `APIClient._sanitize_input`: non-string input yields `""`; string input
is NUL-stripped and length-bounded. -/
def sanitize_input : PyVal → String
  | .str s => sanitize_input_str s
  | _ => ""

end APIClient

theorem sanitize_chars_no_nul (cs : List Char) : nulChar ∉ sanitize_chars cs := by
  intro h
  unfold sanitize_chars at h
  simp only [] at h
  split at h
  · have := List.take_subset 10000 _ h
    simp [List.mem_filter] at this
  · simp [List.mem_filter] at h

theorem sanitize_chars_length (cs : List Char) : (sanitize_chars cs).length ≤ 10000 := by
  unfold sanitize_chars
  simp only []
  split
  · simp
  · omega

theorem sanitize_chars_fixed (t : List Char) (hl : t.length ≤ 10000) (hn : nulChar ∉ t) :
    sanitize_chars t = t := by
  unfold sanitize_chars
  simp only []
  rw [List.filter_eq_self.mpr]
  · rw [if_neg (by omega)]
  · intro c hc
    simp only [ne_eq, bne_iff_ne]
    intro h
    exact hn (h ▸ hc)

theorem sanitize_chars_idem (cs : List Char) :
    sanitize_chars (sanitize_chars cs) = sanitize_chars cs :=
  sanitize_chars_fixed _ (sanitize_chars_length cs) (sanitize_chars_no_nul cs)

theorem sanitize_chars_prefix (cs : List Char) :
    sanitize_chars cs <+: cs.filter (fun c => c != nulChar) := by
  unfold sanitize_chars
  simp only []
  split
  · exact List.take_prefix _ _
  · exact List.prefix_refl _

/-- C4: `sanitize` is idempotent on strings, its output never exceeds 10000
characters and never contains a NUL byte, overlength input is truncated to a
prefix (of the NUL-stripped text) rather than rejected, and every non-string
input yields the empty string. -/
theorem sanitize_input_spec :
    (∀ s : String,
      APIClient.sanitize_input (PyVal.str (APIClient.sanitize_input (PyVal.str s)))
        = APIClient.sanitize_input (PyVal.str s))
    ∧ (∀ v : PyVal, (APIClient.sanitize_input v).length ≤ 10000)
    ∧ (∀ v : PyVal, nulChar ∉ (APIClient.sanitize_input v).data)
    ∧ (∀ s : String,
        (APIClient.sanitize_input (PyVal.str s)).data <+: s.data.filter (fun c => c != nulChar))
    ∧ (∀ v : PyVal, (∀ s, v ≠ PyVal.str s) → APIClient.sanitize_input v = "") := by
  refine ⟨?_, ?_, ?_, ?_, ?_⟩
  · intro s
    simp only [APIClient.sanitize_input, APIClient.sanitize_input_str]
    exact congrArg String.mk (sanitize_chars_idem s.data)
  · intro v
    cases v <;> simp [APIClient.sanitize_input, APIClient.sanitize_input_str, String.length]
    case str s => exact sanitize_chars_length s.data
  · intro v
    cases v <;> simp [APIClient.sanitize_input, APIClient.sanitize_input_str]
    case str s => exact sanitize_chars_no_nul s.data
  · intro s
    exact sanitize_chars_prefix s.data
  · intro v h
    cases v <;> simp [APIClient.sanitize_input]
    case str s => exact absurd rfl (h s)

/-! ## Message model — `ChatMessage`

`format_chat_message` (modules/utils.py, lines 52–71) builds every history
entry as a dict `{"role": role, "content": content}` with string values, and
`truncate_conversation_history` is annotated `List[Dict[str, str]]`; a
well-formed message is therefore a pair of strings. -/

/-- A chat message `{role, content}` as built by `format_chat_message` and
`APIClient._validate_messages`. -/
structure ChatMessage where
  role : String
  content : String
deriving Repr, DecidableEq

/-! ## History manager — `truncate_conversation_history`
(modules/utils.py, lines 123–150)

```python
if len(messages) <= max_messages:
    return messages
system_messages = [m for m in messages if m.get("role") == "system"]
conversation = [m for m in messages if m.get("role") != "system"]
recent_conversation = conversation[-(max_messages - len(system_messages)):]
return system_messages + recent_conversation
```
-/

/-- Python `l[i:]` for an integer `i` (possibly negative): a negative start
counts back from the end and is clamped at 0; a nonnegative start beyond the
end yields `[]`. Never raises. -/
def pySliceFrom {α : Type} (l : List α) (i : Int) : List α :=
  let start : Int := if i < 0 then max ((l.length : Int) + i) 0 else i
  l.drop start.toNat

/-- `truncate_conversation_history`. `max_messages` is a Python `int`; the
slice start `-(max_messages - len(system_messages))` is computed in `Int`
exactly as Python does. -/
def truncate_conversation_history (messages : List ChatMessage) (max_messages : Int) :
    List ChatMessage :=
  if (messages.length : Int) ≤ max_messages then messages
  else
    let system_messages := messages.filter (fun m => m.role == "system")
    let conversation := messages.filter (fun m => m.role != "system")
    let recent_conversation :=
      pySliceFrom conversation (-(max_messages - (system_messages.length : Int)))
    system_messages ++ recent_conversation

/-- C2: the claim fails on the code. With `maxMessages = 2` and two system
messages (keep-count `2 - 2 = 0`), Python evaluates `conversation[-0:]`,
i.e. `conversation[0:]` — the whole non-system list — so the user message
survives and the output has 3 > 2 messages. With three system messages and
`maxMessages = 2` (keep-count `-1`), `conversation[1:]` keeps one of the two
non-system messages. The claim mandates zero non-system messages kept in
both cases. -/
theorem truncate_nonpositive_keep_bug :
    truncate_conversation_history
        [⟨"system", "s1"⟩, ⟨"system", "s2"⟩, ⟨"user", "u1"⟩] 2
      = [⟨"system", "s1"⟩, ⟨"system", "s2"⟩, ⟨"user", "u1"⟩]
    ∧ (truncate_conversation_history
        [⟨"system", "s1"⟩, ⟨"system", "s2"⟩, ⟨"user", "u1"⟩] 2).length = 3
    ∧ truncate_conversation_history
        [⟨"system", "s1"⟩, ⟨"system", "s2"⟩, ⟨"system", "s3"⟩,
         ⟨"user", "u1"⟩, ⟨"user", "u2"⟩] 2
      = [⟨"system", "s1"⟩, ⟨"system", "s2"⟩, ⟨"system", "s3"⟩, ⟨"user", "u2"⟩] := by
  refine ⟨by rfl, by rfl, by rfl⟩

/-! ## Message validation — `APIClient._validate_messages`
(modules/api.py, lines 232–266) -/

namespace APIClient

/-- The role set accepted by `_validate_messages`. -/
def valid_roles : List String := ["user", "assistant", "system"]

/-- The body of the `for msg in messages` loop of `_validate_messages`:
`Option.none` models `continue` (the entry is dropped), `some` the appended
`{role, content}` dict. `msg.get("role")` / `msg.get("content")` default to
Python `None` when the key is absent; a non-`str` role can never equal one of
the valid role strings, and a non-`str` content fails `isinstance(content,
str)`, so both cases drop the entry. -/
def validate_entry (msg : PyVal) : Option ChatMessage :=
  match msg with
  | PyVal.dict d =>
    match (lookupKey d "role").getD PyVal.none, (lookupKey d "content").getD PyVal.none with
    | PyVal.str r, PyVal.str c =>
      if r ∈ valid_roles then some ⟨r, sanitize_input_str c⟩ else Option.none
    | _, _ => Option.none
  | _ => Option.none

/-- `APIClient._validate_messages`: `Option.none` models the Python `None`
returned when the input is not a list or when no entry survives. -/
def validate_messages (messages : PyVal) : Option (List ChatMessage) :=
  match messages with
  | PyVal.list msgs =>
    let validated := msgs.filterMap validate_entry
    if validated.isEmpty then Option.none else some validated
  | _ => Option.none

end APIClient

theorem validate_entry_inv (msg : PyVal) (m : ChatMessage)
    (h : APIClient.validate_entry msg = some m) :
    ∃ d r c, msg = PyVal.dict d
      ∧ (lookupKey d "role").getD PyVal.none = PyVal.str r
      ∧ (lookupKey d "content").getD PyVal.none = PyVal.str c
      ∧ r ∈ APIClient.valid_roles
      ∧ m = ⟨r, APIClient.sanitize_input_str c⟩ := by
  unfold APIClient.validate_entry at h
  split at h
  case _ d =>
    split at h
    case _ r c hr hc =>
      split at h
      case isTrue hmem => exact ⟨d, r, c, rfl, hr, hc, hmem, (Option.some.inj h).symm⟩
      case isFalse => exact absurd h (by simp)
    case _ => exact absurd h (by simp)
  case _ => exact absurd h (by simp)

/-- C8: `validate_messages` silently drops every entry that is not a dict
carrying a recognized string role and a string content, sanitizes the content
of every survivor, returns the `None` sentinel exactly when the input is not
a list or no entry survives, and on the claim's concrete input keeps exactly
the first message, sanitized. -/
theorem validate_messages_spec :
    (APIClient.validate_messages (PyVal.list
        [PyVal.dict [("role", PyVal.str "user"), ("content", PyVal.str "hi")],
         PyVal.dict [("role", PyVal.str "alien"), ("content", PyVal.str "x")],
         PyVal.str "not-a-dict"])
      = some [⟨"user", "hi"⟩])
    ∧ (∀ v : PyVal, (∀ l, v ≠ PyVal.list l) → APIClient.validate_messages v = Option.none)
    ∧ (∀ l : List PyVal, APIClient.validate_messages (PyVal.list l) = Option.none
        ↔ l.filterMap APIClient.validate_entry = [])
    ∧ (∀ (l : List PyVal) (res : List ChatMessage),
        APIClient.validate_messages (PyVal.list l) = some res
        → res = l.filterMap APIClient.validate_entry)
    ∧ (∀ (l : List PyVal) (m : ChatMessage), m ∈ l.filterMap APIClient.validate_entry →
        ∃ msg ∈ l, ∃ d r c, msg = PyVal.dict d
          ∧ (lookupKey d "role").getD PyVal.none = PyVal.str r
          ∧ (lookupKey d "content").getD PyVal.none = PyVal.str c
          ∧ r ∈ APIClient.valid_roles
          ∧ m = ⟨r, APIClient.sanitize_input_str c⟩) := by
  refine ⟨?_, ?_, ?_, ?_, ?_⟩
  · rfl
  · intro v h
    cases v <;> simp [APIClient.validate_messages]
    case list l => exact absurd rfl (h l)
  · intro l
    unfold APIClient.validate_messages
    simp only []
    constructor
    · intro h
      by_cases he : (l.filterMap APIClient.validate_entry).isEmpty
      · exact List.isEmpty_iff.mp he
      · rw [if_neg he] at h
        exact absurd h (by simp)
    · intro h
      rw [if_pos (by simp [h])]
  · intro l res h
    unfold APIClient.validate_messages at h
    simp only [] at h
    split at h
    · exact absurd h (by simp)
    · exact (Option.some.inj h).symm
  · intro l m hm
    obtain ⟨msg, hmsg, hsome⟩ := List.mem_filterMap.mp hm
    exact ⟨msg, hmsg, validate_entry_inv msg m hsome⟩

/-! ## RAG augmenter — `enhance_prompt_with_rag`
(modules/utils.py, lines 74–120)

```python
if not rag_context or not isinstance(rag_context, list):
    return user_message
context_parts = []
for idx, doc in enumerate(rag_context, 1):
    if isinstance(doc, dict):
        content = doc.get("content", "")
        if content:
            context_parts.append(f"[Document {idx}]\n{content}")
if not context_parts:
    return user_message
context_str = "\n\n".join(context_parts)
enhanced_prompt = f"""..."""
```
The guard `not rag_context or not isinstance(rag_context, list)` holds for
every non-list value (falsy or not) and for the empty list, so the embedding
cases on the list constructor. `debug_mode` only drives logging and a
sidebar write; it does not affect the returned string. -/

/-- `doc.get("content", "")` for a document, as the loop body reads it; for a
non-dict document the loop never reads content at all, which coincides with
the falsy default `""`. -/
def doc_content : PyVal → PyVal
  | PyVal.dict d => (lookupKey d "content").getD (PyVal.str "")
  | _ => PyVal.str ""

/-- A document contributes a block exactly when it is a dict whose
`content` is truthy; `doc_content` already yields the falsy `""` for
non-dicts. -/
def usable_doc (doc : PyVal) : Bool := (doc_content doc).truthy

/-- The `for idx, doc in enumerate(rag_context, 1)` loop of
`enhance_prompt_with_rag`: `idx` advances on every document, contributing or
not. -/
def context_parts : List PyVal → Nat → List String
  | [], _ => []
  | doc :: rest, idx =>
    match doc with
    | PyVal.dict d =>
      let content := (lookupKey d "content").getD (PyVal.str "")
      if content.truthy then
        ("[Document " ++ toString idx ++ "]\n" ++ content.strPy) :: context_parts rest (idx + 1)
      else context_parts rest (idx + 1)
    | _ => context_parts rest (idx + 1)

/-- The f-string template wrapping the joined context blocks and the user
question. -/
def enhanced_template (context_str user_message : String) : String :=
  "Based on the following context, please answer the user\x27s question:\n\nContext:\n"
    ++ context_str ++ "\n\nUser Question: " ++ user_message
    ++ "\n\nPlease provide a comprehensive answer based on the context provided above."

/-- `enhance_prompt_with_rag`. -/
def enhance_prompt_with_rag (user_message : String) (rag_context : PyVal)
    (debug_mode : Bool) : String :=
  match rag_context with
  | PyVal.list docs =>
    if docs.isEmpty then user_message
    else
      let parts := context_parts docs 1
      if parts.isEmpty then user_message
      else enhanced_template (String.intercalate "\n\n" parts) user_message
  | _ => user_message

/-- The block an enumerated document contributes, as the amended claim
describes it: a document at 1-based input position `i` with truthy content
yields `"[Document i]\n<content>"`; any other document yields nothing. -/
def context_block (p : Nat × PyVal) : Option String :=
  if usable_doc p.2 then
    some ("[Document " ++ toString p.1 ++ "]\n" ++ (doc_content p.2).strPy)
  else Option.none

theorem context_parts_eq_enum (docs : List PyVal) (i : Nat) :
    context_parts docs i = (List.enumFrom i docs).filterMap context_block := by
  induction docs generalizing i with
  | nil => rfl
  | cons doc rest ih =>
    have hcons : List.enumFrom i (doc :: rest) = (i, doc) :: List.enumFrom (i + 1) rest := rfl
    rw [hcons, List.filterMap_cons]
    cases doc with
    | dict d =>
      simp only [context_parts, context_block, usable_doc, doc_content]
      by_cases ht : ((lookupKey d "content").getD (PyVal.str "")).truthy
      · simp [ht, ih]
      · simp [ht, ih]
    | none => simpa [context_parts, context_block, usable_doc, doc_content] using ih (i + 1)
    | bool b => simpa [context_parts, context_block, usable_doc, doc_content] using ih (i + 1)
    | int n => simpa [context_parts, context_block, usable_doc, doc_content] using ih (i + 1)
    | str s => simpa [context_parts, context_block, usable_doc, doc_content] using ih (i + 1)
    | list l => simpa [context_parts, context_block, usable_doc, doc_content] using ih (i + 1)

theorem context_parts_nil_of_no_usable (docs : List PyVal) (i : Nat)
    (h : ∀ doc ∈ docs, usable_doc doc = false) : context_parts docs i = [] := by
  induction docs generalizing i with
  | nil => rfl
  | cons doc rest ih =>
    have hd := h doc (List.mem_cons_self _ _)
    cases doc <;> simp [context_parts]
    case dict d =>
      unfold usable_doc doc_content at hd
      rw [if_neg (by simp [hd])]
      exact ih _ (fun x hx => h x (List.mem_cons_of_mem _ hx))
    all_goals exact ih _ (fun x hx => h x (List.mem_cons_of_mem _ hx))

/-- C7: the augmenter returns the user message unchanged when the context is
the empty list, `None`, any non-list value, a list whose only document has
empty content — and in general whenever no document in the list is usable. -/
theorem enhance_prompt_fallbacks :
    (∀ (msg : String) (d : Bool), enhance_prompt_with_rag msg (PyVal.list []) d = msg)
    ∧ (∀ (msg : String) (d : Bool), enhance_prompt_with_rag msg PyVal.none d = msg)
    ∧ (∀ (msg : String) (d : Bool),
        enhance_prompt_with_rag msg (PyVal.list [PyVal.dict [("content", PyVal.str "")]]) d = msg)
    ∧ (∀ (msg : String) (v : PyVal) (d : Bool), (∀ l, v ≠ PyVal.list l) →
        enhance_prompt_with_rag msg v d = msg)
    ∧ (∀ (msg : String) (docs : List PyVal) (d : Bool),
        (∀ doc ∈ docs, usable_doc doc = false) →
        enhance_prompt_with_rag msg (PyVal.list docs) d = msg) := by
  refine ⟨fun msg d => rfl, fun msg d => rfl, fun msg d => rfl, ?_, ?_⟩
  · intro msg v d h
    cases v <;> simp [enhance_prompt_with_rag]
    case list l => exact absurd rfl (h l)
  · intro msg docs d h
    unfold enhance_prompt_with_rag
    simp only []
    by_cases he : docs.isEmpty
    · rw [if_pos he]
    · rw [if_neg he, if_pos (by simp [context_parts_nil_of_no_usable docs 1 h])]

/-- C3 counterexample: with a first document of empty content and a second of
content `"B"`, the only contributed block is labelled `[Document 2]` — the
enumeration index counts input positions, not contributing documents, so the
labels of the included blocks are not the consecutive `1, ..., n` the claim
states (here they would have to be exactly `[Document 1]`). -/
theorem enhance_prompt_label_gap :
    enhance_prompt_with_rag "Q"
        (PyVal.list [PyVal.dict [("content", PyVal.str "")],
                     PyVal.dict [("content", PyVal.str "B")]]) false
      = enhanced_template "[Document 2]\nB" "Q"
    ∧ enhanced_template "[Document 2]\nB" "Q" ≠ enhanced_template "[Document 1]\nB" "Q" := by
  refine ⟨rfl, by decide⟩

/-- C3 amended: each document with truthy content contributes the block
`"[Document i]\n<content>"` where `i` is the document's 1-based position in
the input list (skipped documents still advance the index, so included labels
are increasing but not necessarily consecutive); the blocks appear in input
order and are joined by a blank line inside the fixed template. -/
theorem enhance_prompt_blocks :
    (∀ (docs : List PyVal) (i : Nat),
      context_parts docs i = (List.enumFrom i docs).filterMap context_block)
    ∧ (∀ (msg : String) (docs : List PyVal) (d : Bool),
        context_parts docs 1 ≠ [] →
        enhance_prompt_with_rag msg (PyVal.list docs) d
          = enhanced_template (String.intercalate "\n\n" (context_parts docs 1)) msg) := by
  refine ⟨context_parts_eq_enum, ?_⟩
  intro msg docs d h
  unfold enhance_prompt_with_rag
  simp only []
  have hd : docs ≠ [] := by
    intro he
    exact h (he ▸ rfl)
  rw [if_neg (by simp [hd]), if_neg (by simp [h])]

/-! ## Response normalizer — `extract_assistant_message`
(modules/utils.py, lines 282–309)

```python
try:
    if "choices" in response and len(response["choices"]) > 0:
        choice = response["choices"][0]
        if "message" in choice:
            return choice["message"].get("content")
        elif "text" in choice:
            return choice.get("text")
    if "message" in response:
        return response["message"].get("content")
    return None
except Exception:
    return None
```

The body is embedded as an `Option`-valued computation `extract_try` whose
`Option.none` stands for "some step raised"; the surrounding
`try/except Exception: return None` collapses that to Python `None`. The
function's Python return value (possibly `None`) is a `PyVal`, with
`PyVal.none` playing the "absent" result. -/

/-- The fall-through tail of `extract_assistant_message`: the flat top-level
`message.content` probe followed by `return None`. -/
def extract_tail (response : PyVal) : Option PyVal :=
  match pyContains response "message" with
  | Option.none => Option.none
  | some false => some PyVal.none
  | some true =>
    match pyGetItem response "message" with
    | Option.none => Option.none
    | some m => pyGet m "content" PyVal.none

/-- The `try` body of `extract_assistant_message`. The `and` in
`"choices" in response and len(response["choices"]) > 0` short-circuits, so
`len` is only evaluated when the membership test succeeded. -/
def extract_try (response : PyVal) : Option PyVal :=
  match pyContains response "choices" with
  | Option.none => Option.none
  | some hasChoices =>
    if hasChoices then
      match pyGetItem response "choices" with
      | Option.none => Option.none
      | some choices =>
        match pyLen choices with
        | Option.none => Option.none
        | some n =>
          if n > 0 then
            match pyIndexFirst choices with
            | Option.none => Option.none
            | some choice =>
              match pyContains choice "message" with
              | Option.none => Option.none
              | some hasMsg =>
                if hasMsg then
                  match pyGetItem choice "message" with
                  | Option.none => Option.none
                  | some m => pyGet m "content" PyVal.none
                else
                  match pyContains choice "text" with
                  | Option.none => Option.none
                  | some hasText =>
                    if hasText then pyGet choice "text" PyVal.none
                    else extract_tail response
          else extract_tail response
    else extract_tail response

/-- `extract_assistant_message`: any exception in the body is caught and
converted to `None`. -/
def extract_assistant_message (response : PyVal) : PyVal :=
  match extract_try response with
  | some v => v
  | Option.none => PyVal.none

theorem lookupKey_any (d : List (String × PyVal)) (k : String) (v : PyVal)
    (h : lookupKey d k = some v) : (d.any fun p => p.1 == k) = true := by
  induction d with
  | nil => exact absurd h (by simp [lookupKey])
  | cons p rest ih =>
    obtain ⟨key, val⟩ := p
    unfold lookupKey at h
    by_cases hk : key == k
    · simp [hk]
    · rw [if_neg hk] at h
      simp [hk, ih h]

/-- C6: extraction prefers the choices path (both shapes present yields
`"A"`), falls back to a `text` field when the first choice has no `message`,
reads the flat top-level `message.content` when the choices shape is absent,
returns `None` when no shape matches or an expected field is missing, and
converts every exception of the probing body to `None` instead of raising. -/
theorem extract_assistant_message_spec :
    (extract_assistant_message (PyVal.dict
        [("choices", PyVal.list
            [PyVal.dict [("message", PyVal.dict [("content", PyVal.str "A")])]]),
         ("message", PyVal.dict [("content", PyVal.str "B")])])
      = PyVal.str "A")
    ∧ (extract_assistant_message (PyVal.dict
        [("choices", PyVal.list [PyVal.dict [("text", PyVal.str "T")]])])
      = PyVal.str "T")
    ∧ (extract_assistant_message (PyVal.dict
        [("message", PyVal.dict [("content", PyVal.str "B")])])
      = PyVal.str "B")
    ∧ (extract_assistant_message (PyVal.dict []) = PyVal.none)
    ∧ (extract_assistant_message (PyVal.dict
        [("choices", PyVal.list [PyVal.dict [("message", PyVal.str "oops")]])])
      = PyVal.none)
    ∧ (∀ r : PyVal, extract_try r = Option.none → extract_assistant_message r = PyVal.none) := by
  refine ⟨rfl, rfl, rfl, rfl, rfl, ?_⟩
  intro r h
  unfold extract_assistant_message
  rw [h]

/-- C9: when the first element of `choices` is a dict carrying a `message`
dict that lacks a `content` key, extraction returns `None` no matter what the
top-level `message` key holds (the flat fallback is never consulted once the
choices branch finds a `message` key); the fallback is reached when `choices`
is empty or its first element has neither `message` nor `text`. -/
theorem extract_choices_shadow_spec :
    (∀ (d cdict m : List (String × PyVal)) (cs : List PyVal),
      lookupKey d "choices" = some (PyVal.list (PyVal.dict cdict :: cs)) →
      lookupKey cdict "message" = some (PyVal.dict m) →
      lookupKey m "content" = Option.none →
      extract_assistant_message (PyVal.dict d) = PyVal.none)
    ∧ (extract_assistant_message (PyVal.dict
        [("choices", PyVal.list []),
         ("message", PyVal.dict [("content", PyVal.str "B")])])
      = PyVal.str "B")
    ∧ (extract_assistant_message (PyVal.dict
        [("choices", PyVal.list [PyVal.dict [("foo", PyVal.int 1)]]),
         ("message", PyVal.dict [("content", PyVal.str "B")])])
      = PyVal.str "B") := by
  refine ⟨?_, rfl, rfl⟩
  intro d cdict m cs hd hc hm
  unfold extract_assistant_message extract_try
  simp only [pyContains, pyGetItem, pyLen, pyIndexFirst, pyGet,
    lookupKey_any d "choices" _ hd, lookupKey_any cdict "message" _ hc, hd, hc, hm]
  simp

/-! ## Remote service client — `APIClient.__init__` and
`APIClient.chat_completion` (modules/api.py) -/

/-- Python `s.rstrip('/')`: remove every trailing `'/'` character. -/
def rstripSlash (s : String) : String :=
  String.mk (s.data.reverse.dropWhile (fun c => c == '/')).reverse

/-- The state `APIClient.__init__` (modules/api.py, lines 32–53) constructs:
the trailing-slash-stripped base URL, the key, and the headers (bearer header
only for a truthy, i.e. non-empty, key). -/
structure APIClient where
  base_url : String
  api_key : String
  headers : List (String × String)
deriving Repr, DecidableEq

namespace APIClient

/-- `APIClient.__init__`: `if not base_url: raise ValueError(...)` — the
raise is modelled as `Except.error`; construction otherwise succeeds. -/
def init (base_url : String) (api_key : String) : Except String APIClient :=
  if base_url.isEmpty then Except.error "Base URL cannot be empty"
  else Except.ok
    { base_url := rstripSlash base_url
      api_key := api_key
      headers :=
        if api_key.isEmpty then [("Content-Type", "application/json")]
        else [("Content-Type", "application/json"),
              ("Authorization", "Bearer " ++ api_key)] }

end APIClient

theorem head_dropWhile_false {α : Type} (p : α → Bool) (l : List α) (c : α)
    (h : (l.dropWhile p).head? = some c) : p c = false := by
  induction l with
  | nil => simp [List.dropWhile] at h
  | cons a rest ih =>
    rw [List.dropWhile_cons] at h
    by_cases hpa : p a = true
    · rw [if_pos hpa] at h
      exact ih h
    · rw [if_neg hpa] at h
      simp only [List.head?_cons, Option.some.injEq] at h
      subst h
      simpa using hpa

theorem rstripSlash_decomposition (url : String) :
    ∃ n, url.data = (rstripSlash url).data ++ List.replicate n '/' := by
  refine ⟨(url.data.reverse.takeWhile (fun c => c == '/')).length, ?_⟩
  unfold rstripSlash
  have hsplit := List.takeWhile_append_dropWhile (fun c => c == '/') url.data.reverse
  have hrep : url.data.reverse.takeWhile (fun c => c == '/')
      = List.replicate (url.data.reverse.takeWhile (fun c => c == '/')).length '/' :=
    List.eq_replicate_of_mem (fun b hb => by simpa using List.mem_takeWhile_imp hb)
  calc url.data = url.data.reverse.reverse := (List.reverse_reverse _).symm
    _ = (url.data.reverse.takeWhile (fun c => c == '/')
          ++ url.data.reverse.dropWhile (fun c => c == '/')).reverse := by rw [hsplit]
    _ = (url.data.reverse.dropWhile (fun c => c == '/')).reverse
          ++ (url.data.reverse.takeWhile (fun c => c == '/')).reverse := by
        rw [List.reverse_append]
    _ = _ := by rw [hrep]; simp [List.reverse_replicate]

theorem rstripSlash_no_trailing (url : String) :
    (rstripSlash url).data.getLast? ≠ some '/' := by
  unfold rstripSlash
  intro h
  rw [List.getLast?_reverse] at h
  have := head_dropWhile_false (fun c => c == '/') url.data.reverse '/' h
  simp at this

/-- C10: constructing the client with an empty base URL raises (`ValueError`,
modelled as `Except.error`) instead of returning a degraded client; for every
non-empty base URL construction succeeds, and the stored URL is the input
with its trailing slashes stripped: the input equals the stored URL followed
by some run of `'/'`, and the stored URL itself does not end in `'/'`. The
operations of the client are embedded as total functions returning typed
results (`chat_completion` below) — construction is the one point modelled
with `Except.error`. -/
theorem init_spec :
    (∀ k, APIClient.init "" k = Except.error "Base URL cannot be empty")
    ∧ (∀ url k, url ≠ "" → ∃ c, APIClient.init url k = Except.ok c
        ∧ c.base_url = rstripSlash url ∧ c.api_key = k)
    ∧ (∀ url, ∃ n, url.data = (rstripSlash url).data ++ List.replicate n '/')
    ∧ (∀ url, (rstripSlash url).data.getLast? ≠ some '/') := by
  refine ⟨fun k => rfl, ?_, rstripSlash_decomposition, rstripSlash_no_trailing⟩
  intro url k hurl
  have hne : url.isEmpty = false := by
    rw [← Bool.not_eq_true, String.isEmpty_iff]
    exact hurl
  refine ⟨{ base_url := rstripSlash url, api_key := k,
            headers :=
              if k.isEmpty then [("Content-Type", "application/json")]
              else [("Content-Type", "application/json"),
                    ("Authorization", "Bearer " ++ k)] }, ?_, rfl, rfl⟩
  unfold APIClient.init
  rw [if_neg (by simp [hne])]

/-! ### `APIClient.chat_completion` (modules/api.py, lines 109–168)

```python
validated_messages = self._validate_messages(messages)
if not validated_messages:
    return None
payload = { ... }
try:
    response = requests.post(..., json=payload, timeout=REQUEST_TIMEOUT)
    if response.status_code == 429:
        return {"error": ERROR_MESSAGES["rate_limit"]}
    response.raise_for_status()
    return response.json()
except requests.exceptions.Timeout:
    return {"error": ERROR_MESSAGES["timeout"]}
except requests.exceptions.RequestException as e:
    return {"error": str(e)}
```

The transport is abstracted as an `HttpOutcome`: a delivered response
(status, reason, final URL, decoded JSON body), a timeout, or any other
`RequestException` (connection failures; also a body that fails JSON
decoding, which `requests` ≥ 2.27 raises as `JSONDecodeError`, a
`RequestException`). `Response.raise_for_status` raises `HTTPError` exactly
for statuses 400–599, with the message
`f"{status} Client Error: {reason} for url: {url}"` for 4xx and
`f"{status} Server Error: {reason} for url: {url}"` for 5xx. -/

/-- Outcome of the POST to the completions endpoint, as `chat_completion`
observes it. -/
inductive HttpOutcome where
  | response (status : Nat) (reason : String) (url : String) (body : PyVal)
  | timeout
  | requestError (msg : String)

/-- `ERROR_MESSAGES["rate_limit"]` (constants.py, line 75). -/
def rate_limit_message : String := "Rate limit exceeded. Please try again later."

/-- `ERROR_MESSAGES["timeout"]` (constants.py, line 76). -/
def timeout_message : String := "Request timed out. The service may be overloaded."

/-- `str(e)` for the `HTTPError` raised by `Response.raise_for_status` on a
4xx/5xx status. -/
def http_error_message (status : Nat) (reason url : String) : String :=
  (if status < 500 then toString status ++ " Client Error: "
   else toString status ++ " Server Error: ")
    ++ reason ++ " for url: " ++ url

namespace APIClient

/-- `APIClient.chat_completion`. The payload (model, sampling parameters,
validated messages) only flows into the POST and cannot alter the control
flow, so the embedding keys on the validation result and the transport
outcome; Python `None` returned on validation failure is `Option.none`. -/
def chat_completion (messages : PyVal) (outcome : HttpOutcome) : Option PyVal :=
  match validate_messages messages with
  | Option.none => Option.none
  | some _ =>
    match outcome with
    | HttpOutcome.response status reason url body =>
      if status == 429 then
        some (PyVal.dict [("error", PyVal.str rate_limit_message)])
      else if 400 ≤ status ∧ status < 600 then
        some (PyVal.dict [("error", PyVal.str (http_error_message status reason url))])
      else some body
    | HttpOutcome.timeout =>
      some (PyVal.dict [("error", PyVal.str timeout_message)])
    | HttpOutcome.requestError msg =>
      some (PyVal.dict [("error", PyVal.str msg)])

end APIClient

theorem http_error_message_marker (status : Nat) (reason url : String) :
    " for url: ".data <:+: (http_error_message status reason url).data := by
  unfold http_error_message
  refine ⟨((if status < 500 then toString status ++ " Client Error: "
    else toString status ++ " Server Error: ") ++ reason).data, url.data, ?_⟩
  simp [String.data_append]

theorem rate_limit_message_ne_http_error (status : Nat) (reason url : String) :
    rate_limit_message ≠ http_error_message status reason url := by
  intro h
  have hinf := http_error_message_marker status reason url
  rw [← h] at hinf
  revert hinf
  decide

/-- C5 counterexample: the claim says *any* non-2xx status other than 429
yields a structured error result, but `raise_for_status` only raises for
statuses 400–599. A delivered 303 (non-2xx) response makes `chat_completion`
return the decoded body unchanged — a result with no `error` key and not
carrying any underlying message. -/
theorem chat_completion_303_returns_body :
    APIClient.chat_completion
        (PyVal.list [PyVal.dict [("role", PyVal.str "user"), ("content", PyVal.str "hi")]])
        (HttpOutcome.response 303 "See Other" "http://h/chat/completions"
          (PyVal.dict [("choices", PyVal.list [])]))
      = some (PyVal.dict [("choices", PyVal.list [])])
    ∧ lookupKey [("choices", PyVal.list [])] "error" = Option.none := by
  exact ⟨rfl, rfl⟩

/-- C5 amended: `chat_completion` never raises (every transport failure is
converted to a returned value; the model is a total function). With
validated messages: a 429 response yields the structured rate-limit result;
any other **4xx/5xx** status yields a structured error result carrying the
`HTTPError` message, and that result is distinct from the rate-limit result
for every such status; every status outside 400..599 (including every
non-2xx status such as 3xx) returns the decoded body unchanged; a timeout or
any other request failure yields a structured error result carrying the
underlying message. The absent result is returned exactly when message
validation fails. -/
theorem chat_completion_spec :
    (∀ (msgs : PyVal) (v : List ChatMessage) (reason url : String) (body : PyVal),
      APIClient.validate_messages msgs = some v →
      APIClient.chat_completion msgs (HttpOutcome.response 429 reason url body)
        = some (PyVal.dict [("error", PyVal.str rate_limit_message)]))
    ∧ (∀ (msgs : PyVal) (v : List ChatMessage) (status : Nat) (reason url : String)
        (body : PyVal),
      APIClient.validate_messages msgs = some v →
      400 ≤ status → status < 600 → status ≠ 429 →
      APIClient.chat_completion msgs (HttpOutcome.response status reason url body)
        = some (PyVal.dict [("error", PyVal.str (http_error_message status reason url))]))
    ∧ (∀ (msgs : PyVal) (v : List ChatMessage) (status : Nat) (reason url : String)
        (body : PyVal),
      APIClient.validate_messages msgs = some v →
      ¬(400 ≤ status ∧ status < 600) →
      APIClient.chat_completion msgs (HttpOutcome.response status reason url body)
        = some body)
    ∧ (∀ (status : Nat) (reason url : String),
      PyVal.dict [("error", PyVal.str rate_limit_message)]
        ≠ PyVal.dict [("error", PyVal.str (http_error_message status reason url))])
    ∧ (∀ (msgs : PyVal) (v : List ChatMessage),
      APIClient.validate_messages msgs = some v →
      APIClient.chat_completion msgs HttpOutcome.timeout
        = some (PyVal.dict [("error", PyVal.str timeout_message)])
      ∧ ∀ m, APIClient.chat_completion msgs (HttpOutcome.requestError m)
          = some (PyVal.dict [("error", PyVal.str m)]))
    ∧ (∀ (msgs : PyVal) (outcome : HttpOutcome),
      APIClient.chat_completion msgs outcome = Option.none
        ↔ APIClient.validate_messages msgs = Option.none) := by
  refine ⟨?_, ?_, ?_, ?_, ?_, ?_⟩
  · intro msgs v reason url body hv
    simp [APIClient.chat_completion, hv]
  · intro msgs v status reason url body hv h4 h6 hne
    have h429 : (status == 429) = false := by simpa using hne
    simp [APIClient.chat_completion, hv, h429, h4, h6]
  · intro msgs v status reason url body hv hrange
    have h429 : (status == 429) = false := by
      simp only [beq_eq_false_iff_ne, ne_eq]
      intro h
      exact hrange (by omega)
    simp [APIClient.chat_completion, hv, h429, hrange]
  · intro status reason url h
    have := rate_limit_message_ne_http_error status reason url
    simp only [PyVal.dict.injEq, List.cons.injEq, Prod.mk.injEq, PyVal.str.injEq] at h
    exact this h.1.2
  · intro msgs v hv
    constructor
    · simp [APIClient.chat_completion, hv]
    · intro m
      simp [APIClient.chat_completion, hv]
  · intro msgs outcome
    constructor
    · intro h
      cases hvv : APIClient.validate_messages msgs with
      | none => rfl
      | some v =>
        exfalso
        unfold APIClient.chat_completion at h
        rw [hvv] at h
        cases outcome with
        | response status reason url body =>
          by_cases h429 : (status == 429) = true
          · simp [h429] at h
          · by_cases herr : 400 ≤ status ∧ status < 600
            · simp [h429, herr] at h
            · simp [h429, herr] at h
        | timeout => simp at h
        | requestError m => simp at h
    · intro h
      unfold APIClient.chat_completion
      rw [h]

/-! ## Orchestrator RAG substitution — `process_user_message`
(chat.py, lines 281–304)

```python
messages_to_send = st.session_state.messages.copy()
...
if rag_results:
    enhanced_input = enhance_prompt_with_rag(user_input, rag_results, ...)
    if messages_to_send and messages_to_send[-1]["role"] == "user":
        messages_to_send[-1]["content"] = enhanced_input
```

Python reference semantics matter here: the stored history is a list of
references to message dicts, `list.copy()` is a *shallow* copy (a fresh list
object holding the same dict references), and
`messages_to_send[-1]["content"] = ...` mutates the referenced dict in
place. The embedding makes the reference structure explicit: a heap (arena)
of `ChatMessage` dicts indexed by `Nat`, with the stored history and the
outgoing snapshot both lists of heap indices. -/

/-- The RAG-substitution step of `process_user_message` over the shared
heap, run when the vector query returned truthy results: returns the
outgoing snapshot `messages_to_send` (the copied list of references) and the
heap after the turn. The stored history value `history` (the list of
references held in `st.session_state.messages`) is untouched as a list —
but the dict it shares with the snapshot is updated through the shared
reference. -/
def rag_substitute (history : List Nat) (heap : List ChatMessage)
    (enhanced_input : String) : List Nat × List ChatMessage :=
  let messages_to_send := history
  match messages_to_send.getLast? with
  | Option.none => (messages_to_send, heap)
  | some r =>
    match heap.get? r with
    | some m =>
      if m.role == "user" then
        (messages_to_send, heap.set r { m with content := enhanced_input })
      else (messages_to_send, heap)
    | Option.none => (messages_to_send, heap)

/-- C1: the claim fails on the code. Run the spec's own RAG scenario — stored
history ends with the user dict `{role: "user", content: "What is X?"}` (heap
cell 0), the vector query returned `[{content: "Doc A"}]`. After the
substitution step the heap cell referenced by the stored history entry holds
the augmented prompt, not `"What is X?"`: `list.copy()` copies only the list
of references, so the dict rewritten for transmission *is* the stored dict. -/
theorem rag_substitute_mutates_stored_history :
    (let enhanced := enhance_prompt_with_rag "What is X?"
        (PyVal.list [PyVal.dict [("content", PyVal.str "Doc A")]]) false
     let after := rag_substitute [0] [⟨"user", "What is X?"⟩] enhanced
     after.2.get? 0 = some ⟨"user", enhanced⟩
       ∧ after.2.get? 0 ≠ some ⟨"user", "What is X?"⟩
       ∧ enhanced ≠ "What is X?") := by
  refine ⟨rfl, ?_, ?_⟩ <;> decide
